import Mathlib

/-!
Shallow embedding of `src/tcpclient.c` (tcpscaler): the frame decode loop of
`readcb`, the send path `writecb`, the timestamp subtraction
`subtract_timespec`, the RTT ring buffer of `struct writecb_params`, the
startup interval computations of `main`, and the connection ramp-up loop of
`main`.  Machine integers are modelled as `Nat`/`Int`; unsigned long
arithmetic is taken modulo 2^64 (LP64) where overflow can occur.
-/

namespace Tcpscaler

/-- MAX_QUERIES_IN_FLIGHT from tcpclient.c: size of the RTT timestamp ring. -/
def MAX_QUERIES_IN_FLIGHT : Nat := 8

/-- struct timespec: seconds (time_t) and nanoseconds (long), both signed. -/
structure Timespec where
  tv_sec : Int
  tv_nsec : Int
deriving DecidableEq

/-- a timespec whose nanosecond field is normalized into [0, 1e9). -/
def Timespec.normalized (t : Timespec) : Prop :=
  0 ≤ t.tv_nsec ∧ t.tv_nsec < 1000000000

instance (t : Timespec) : Decidable t.normalized := by
  unfold Timespec.normalized; infer_instance

/-- total nanoseconds represented by a timespec. -/
def Timespec.toNanos (t : Timespec) : Int := 1000000000 * t.tv_sec + t.tv_nsec

/-- subtract_timespec from tcpclient.c: result := a - b, clamped to zero when
a <= b (compared lexicographically), borrowing a second when the nanosecond
field of a is smaller than that of b. -/
def subtract_timespec (a b : Timespec) : Timespec :=
  if a.tv_sec < b.tv_sec ∨ (a.tv_sec = b.tv_sec ∧ a.tv_nsec ≤ b.tv_nsec) then
    ⟨0, 0⟩
  else if a.tv_nsec < b.tv_nsec then
    ⟨a.tv_sec - b.tv_sec - 1, a.tv_nsec + 1000000000 - b.tv_nsec⟩
  else
    ⟨a.tv_sec - b.tv_sec, a.tv_nsec - b.tv_nsec⟩

/-- the value printed per decoded response in readcb:
(result.tv_nsec / 1000) + (1000000 * result.tv_sec). -/
def rttMicros (r : Timespec) : Int := r.tv_nsec / 1000 + 1000000 * r.tv_sec

/-- the decode loop of readcb, acting on the accumulated input buffer
(bytes as Nat): while at least 4 bytes are buffered, read the 16-bit
big-endian length and query id; if fewer than length + 2 bytes are buffered
stop without consuming anything; otherwise drain length + 2 bytes, yield the
query id, and loop.  Returns the yielded query ids in order together with the
bytes left in the buffer. -/
def readcbLoop (buf : List Nat) : List Nat × List Nat :=
  if h4 : buf.length < 4 then ([], buf)
  else
    let dns_len := 256 * buf.headI + buf.tail.headI
    let query_id := 256 * buf.tail.tail.headI + buf.tail.tail.tail.headI
    if buf.length < dns_len + 2 then ([], buf)
    else
      let r := readcbLoop (buf.drop (dns_len + 2))
      (query_id :: r.1, r.2)
termination_by buf.length
decreasing_by simp only [List.length_drop]; omega

/-- big-endian byte pair of a 16-bit value. -/
def be16 (v : Nat) : List Nat := [v / 256, v % 256]

/-- one complete wire frame: 2-byte big-endian length L = payload.length + 2,
2-byte big-endian identifier, then the payload (the L - 2 bytes after the
identifier). -/
def encodeFrame (id : Nat) (payload : List Nat) : List Nat :=
  be16 (payload.length + 2) ++ be16 id ++ payload

/-- concatenation of complete wire frames, as coalesced into one read event. -/
def encodeFrames : List (Nat × List Nat) → List Nat
  | [] => []
  | f :: fs => encodeFrame f.1 f.2 ++ encodeFrames fs

/-- ring slot for a query id: identifier mod MAX_QUERIES_IN_FLIGHT. -/
def slotIdx (q : Nat) : Fin MAX_QUERIES_IN_FLIGHT :=
  ⟨q % MAX_QUERIES_IN_FLIGHT, Nat.mod_lt q (by decide)⟩

/-- per-connection mutable state of struct writecb_params, together with the
frames handed to the connection's output buffer by evbuffer_add. -/
structure ConnState where
  query_id : Nat
  query_timestamps : Fin MAX_QUERIES_IN_FLIGHT → Timespec
  output : List (List Nat)

/-- the fixed protocol payload of writecb's data array (bytes 4 to 30): a DNS
query for example.com, type A. -/
def fixedPayload : List Nat :=
  [0x01, 0x00, 0x00, 0x01, 0x00, 0x00,
   0x00, 0x00, 0x00, 0x00, 0x07, 0x65, 0x78, 0x61,
   0x6d, 0x70, 0x6c, 0x65, 0x03, 0x63, 0x6f, 0x6d,
   0x00, 0x00, 0x01, 0x00, 0x01]

/-- the 31 wire bytes assembled by writecb: big-endian size 0x001d, the
big-endian query id copied over bytes 2 and 3, then the fixed payload. -/
def writecbFrame (query_id : Nat) : List Nat :=
  [0x00, 0x1d] ++ be16 query_id ++ fixedPayload

/-- writecb: copy the current query id into the frame, record the current
monotonic time into ring slot query_id mod 8, hand the frame to the output
buffer, and increment the query id (uint16_t, wrapping at 65536). -/
def writecb (now : Timespec) (s : ConnState) : ConnState :=
  { query_id := (s.query_id + 1) % 65536,
    query_timestamps := Function.update s.query_timestamps (slotIdx s.query_id) now,
    output := s.output ++ [writecbFrame s.query_id] }

/-- iterated ticks of the persistent send timer, at the given times. -/
def doSends (s : ConnState) (ts : List Timespec) : ConnState :=
  ts.foldl (fun u t => writecb t u) s

/-- BEV_EVENT_ERROR flag of libevent. -/
def BEV_EVENT_ERROR : Nat := 0x20

/-- eventcb: on an error event it only prints a diagnostic via perror; it
changes no connection state, disables no timer and frees nothing. -/
def eventcb (events : Nat) (s : ConnState) : ConnState := s

/-- the RTT printed by readcb when a response with the given query id is
decoded at time now: subtract the ring slot timestamp from now and convert
to whole microseconds. -/
def readcbRtt (s : ConnState) (query_id : Nat) (now : Timespec) : Int :=
  rttMicros (subtract_timespec now (s.query_timestamps (slotIdx query_id)))

/-- a concrete connection state used for evaluation: query id 5, zeroed ring
slots, empty output buffer. -/
def cs5 : ConnState := ⟨5, fun _ => ⟨0, 0⟩, []⟩

/-- a concrete fresh connection state: query id 0, as set up by main. -/
def cs0 : ConnState := ⟨0, fun _ => ⟨0, 0⟩, []⟩

/-- 2^64: unsigned long arithmetic in main (LP64) is modulo this. -/
def ULONG_MOD : Nat := 18446744073709551616

/-- the write_interval computed in main from nb_conn and rate, in unsigned
long arithmetic: tv_sec = nb_conn / rate and tv_usec = (1000000 * nb_conn /
rate) mod 1000000, replaced by 1 when it is not positive. -/
def computeWriteInterval (nb_conn rate : Nat) : Nat × Nat :=
  (nb_conn / rate,
   if (1000000 * nb_conn % ULONG_MOD / rate) % 1000000 > 0 then
     (1000000 * nb_conn % ULONG_MOD / rate) % 1000000
   else 1)

/-- the interval formula exactly as the claim words it, over unbounded
integers: floor(C/R) seconds plus ((1000000*C/R) mod 1000000) microseconds,
the microsecond component raised to 1 when it would be 0. -/
def specWriteInterval (C R : Nat) : Nat × Nat :=
  (C / R,
   if (1000000 * C / R) % 1000000 = 0 then 1 else (1000000 * C / R) % 1000000)

/-- total microseconds of a (seconds, microseconds) interval. -/
def intervalTotalUsec (itv : Nat × Nat) : Nat := 1000000 * itv.1 + itv.2

/-- rand_usec drawn in main for one connection:
random() % (1000000 * write_interval.tv_sec + write_interval.tv_usec + 1). -/
def randUsec (r : Nat) (itv : Nat × Nat) : Nat :=
  r % (1000000 * itv.1 + itv.2 + 1)

/-- the ramp-up loop of main over attempt outcomes: entry i of the bufevents
array is written with a live bufferevent (some i) when the i-th create and
connect both succeed, and with NULL (none) on the first failure, which
breaks the loop; entries beyond the break are never written. -/
def rampGo (ok : Nat → Bool) : Nat → Nat → List (Option Nat)
  | _, 0 => []
  | i, fuel + 1 => if ok i then some i :: rampGo ok (i + 1) fuel else [none]

/-- the bufevents entries written by the ramp-up loop for nb_conn attempts. -/
def rampArray (ok : Nat → Bool) (nb_conn : Nat) : List (Option Nat) :=
  rampGo ok 0 nb_conn

/-- the scheduling loop of main: walks the array while the entry is non-NULL
and counts the connections that are given a send timer. -/
def scheduleCount : List (Option Nat) → Nat
  | [] => 0
  | none :: _ => 0
  | some _ :: rest => scheduleCount rest + 1

/-- the seed passed to srandom in main: the literal constant 42, whatever
the run environment (it is not derived from time, pid or entropy). -/
def srandomSeed (env : Nat) : Nat := 42

/-- the per-connection initial delays drawn in the scheduling loop of a run:
the PRNG is modelled as a function from seed and draw index to output; the
i-th draw is reduced modulo (interval + 1) as in main. -/
def initialDelaySeq (rng : Nat → Nat → Nat) (env : Nat) (itv : Nat × Nat)
    (i : Nat) : Nat :=
  randUsec (rng (srandomSeed env) i) itv

/-- the command-line values relevant to the validity check in main. -/
structure CmdArgs where
  host_given : Bool
  port_given : Bool
  rate : Nat
  nb_conn : Nat
  new_conn_rate : Nat

/-- the mandatory-argument check of main: optind >= argc, port == NULL,
rate == 0 or nb_conn == 0 is a fatal usage error; new_conn_rate is not
inspected. -/
def missingMandatoryArgs (a : CmdArgs) : Bool :=
  !a.host_given || !a.port_given || a.rate == 0 || a.nb_conn == 0

/-- the new-connection interval division in main:
new_conn_interval = 1000000 / new_conn_rate. -/
def new_conn_interval (a : CmdArgs) : Nat := 1000000 / a.new_conn_rate

lemma subtract_timespec_of_le (a b : Timespec) (h : a.toNanos ≤ b.toNanos)
    (ha : a.normalized) (hb : b.normalized) :
    subtract_timespec a b = ⟨0, 0⟩ := by
  obtain ⟨ha0, ha1⟩ := ha
  obtain ⟨hb0, hb1⟩ := hb
  unfold Timespec.toNanos at h
  unfold subtract_timespec
  have hc : a.tv_sec < b.tv_sec ∨ (a.tv_sec = b.tv_sec ∧ a.tv_nsec ≤ b.tv_nsec) := by
    omega
  rw [if_pos hc]

lemma subtract_timespec_of_gt (a b : Timespec) (h : b.toNanos < a.toNanos)
    (ha : a.normalized) (hb : b.normalized) :
    (subtract_timespec a b).toNanos = a.toNanos - b.toNanos ∧
    0 ≤ (subtract_timespec a b).tv_sec ∧ (subtract_timespec a b).normalized := by
  obtain ⟨ha0, ha1⟩ := ha
  obtain ⟨hb0, hb1⟩ := hb
  unfold Timespec.toNanos at h ⊢
  unfold subtract_timespec Timespec.normalized
  split_ifs with h1 h2 <;> simp only <;> omega

lemma rttMicros_eq_toNanos_div (r : Timespec) (h0 : 0 ≤ r.tv_sec)
    (h1 : 0 ≤ r.tv_nsec) : rttMicros r = r.toNanos / 1000 := by
  unfold rttMicros Timespec.toNanos
  omega

/-- C8: for all timespec values with normalized nanosecond fields,
subtract_timespec returns exactly a - b (normalized, non-negative fields) when
a > b, returns zero when a <= b, and consequently the RTT value printed from
its result is never negative, even when the ring slot held a timestamp later
than the receive time. -/
theorem C8_subtract_timespec_correct (a b : Timespec)
    (ha : a.normalized) (hb : b.normalized) :
    (b.toNanos < a.toNanos →
      (subtract_timespec a b).toNanos = a.toNanos - b.toNanos ∧
      (subtract_timespec a b).normalized) ∧
    (a.toNanos ≤ b.toNanos → subtract_timespec a b = ⟨0, 0⟩) ∧
    0 ≤ rttMicros (subtract_timespec a b) := by
  refine ⟨fun h => ⟨(subtract_timespec_of_gt a b h ha hb).1,
    (subtract_timespec_of_gt a b h ha hb).2.2⟩,
    fun h => subtract_timespec_of_le a b h ha hb, ?_⟩
  rcases le_or_lt a.toNanos b.toNanos with h | h
  · rw [subtract_timespec_of_le a b h ha hb]
    unfold rttMicros
    norm_num
  · obtain ⟨heq, hsec, hn0, hn1⟩ := subtract_timespec_of_gt a b h ha hb
    unfold rttMicros
    omega

/-- C8 witness: concrete evaluation of the theorem at a = 2 s 300 ns,
b = 1 s 500 ns. -/
theorem C8_witness :
    (subtract_timespec ⟨2, 300⟩ ⟨1, 500⟩).toNanos =
      Timespec.toNanos ⟨2, 300⟩ - Timespec.toNanos ⟨1, 500⟩ :=
  ((C8_subtract_timespec_correct ⟨2, 300⟩ ⟨1, 500⟩
      ⟨by norm_num, by norm_num⟩ ⟨by norm_num, by norm_num⟩).1
    (by norm_num [Timespec.toNanos])).1

lemma readcbLoop_short (buf : List Nat) (h : buf.length < 4) :
    readcbLoop buf = ([], buf) := by
  unfold readcbLoop
  rw [dif_pos h]

lemma readcbLoop_nil : readcbLoop [] = ([], []) := readcbLoop_short [] (by simp)

lemma readcbLoop_incomplete (b0 b1 b2 b3 : Nat) (rest : List Nat)
    (h : (b0 :: b1 :: b2 :: b3 :: rest).length < 256 * b0 + b1 + 2) :
    readcbLoop (b0 :: b1 :: b2 :: b3 :: rest)
      = ([], b0 :: b1 :: b2 :: b3 :: rest) := by
  unfold readcbLoop
  rw [dif_neg (by simp)]
  simp only [List.headI_cons, List.tail_cons]
  rw [if_pos h]

lemma readcbLoop_frame (id : Nat) (payload rest : List Nat) :
    readcbLoop (encodeFrame id payload ++ rest) =
      (id :: (readcbLoop rest).1, (readcbLoop rest).2) := by
  have hshape : encodeFrame id payload ++ rest =
      (payload.length + 2) / 256 :: (payload.length + 2) % 256 ::
        id / 256 :: id % 256 :: (payload ++ rest) := by
    simp [encodeFrame, be16]
  rw [hshape]
  generalize hr : readcbLoop rest = R
  unfold readcbLoop
  rw [dif_neg (by simp)]
  simp only [List.headI_cons, List.tail_cons]
  rw [Nat.div_add_mod (payload.length + 2) 256, Nat.div_add_mod id 256]
  rw [if_neg (by simp)]
  have hsplit : (payload.length + 2) / 256 :: (payload.length + 2) % 256 ::
      id / 256 :: id % 256 :: (payload ++ rest) =
      ((payload.length + 2) / 256 :: (payload.length + 2) % 256 ::
        id / 256 :: id % 256 :: payload) ++ rest := by
    simp
  rw [hsplit, List.drop_left' (by simp only [List.length_cons]), hr]

lemma readcbLoop_frames (fs : List (Nat × List Nat)) :
    readcbLoop (encodeFrames fs) = (fs.map Prod.fst, []) := by
  induction fs with
  | nil => simpa [encodeFrames] using readcbLoop_nil
  | cons f fs ih => simp [encodeFrames, readcbLoop_frame, ih]

lemma readcbLoop_take_frame (id k : Nat) (payload : List Nat)
    (hk : k < (encodeFrame id payload).length) :
    readcbLoop ((encodeFrame id payload).take k)
      = ([], (encodeFrame id payload).take k) := by
  by_cases h4 : k < 4
  · apply readcbLoop_short
    simp only [List.length_take]
    omega
  · obtain ⟨m, rfl⟩ : ∃ m, k = m + 4 := ⟨k - 4, by omega⟩
    have hlen : (encodeFrame id payload).length = payload.length + 4 := by
      simp [encodeFrame, be16]
    have hm : m < payload.length := by
      rw [hlen] at hk; omega
    have htake : (encodeFrame id payload).take (m + 4) =
        (payload.length + 2) / 256 :: (payload.length + 2) % 256 ::
          id / 256 :: id % 256 :: payload.take m := by
      have hshape : encodeFrame id payload =
          (payload.length + 2) / 256 :: (payload.length + 2) % 256 ::
            id / 256 :: id % 256 :: payload := by
        simp [encodeFrame, be16]
      rw [hshape]
      rfl
    rw [htake]
    apply readcbLoop_incomplete
    rw [show 256 * ((payload.length + 2) / 256) + (payload.length + 2) % 256
        = payload.length + 2 from Nat.div_add_mod _ 256]
    simp only [List.length_cons, List.length_take]
    omega

/-- C1: the decoder consumes only complete frames: with fewer than 4 buffered
bytes it yields nothing and consumes nothing; with the length field L read but
fewer than L + 2 bytes buffered it yields nothing and consumes nothing;
otherwise it consumes exactly L + 2 bytes, yields the frame's identifier and
loops, so n concatenated complete frames yield all n identifiers in buffer
order in one call, and a frame split across two calls yields zero frames on
the first call and exactly the original identifier on the second. -/
theorem C1_decoder_complete_frames (id k : Nat) (payload : List Nat)
    (hid : id < 65536) (hL : payload.length + 2 < 65536)
    (hk : k < (encodeFrame id payload).length) :
    (∀ buf : List Nat, buf.length < 4 → readcbLoop buf = ([], buf)) ∧
    (∀ b0 b1 b2 b3 : Nat, ∀ rest : List Nat,
      (b0 :: b1 :: b2 :: b3 :: rest).length < 256 * b0 + b1 + 2 →
      readcbLoop (b0 :: b1 :: b2 :: b3 :: rest)
        = ([], b0 :: b1 :: b2 :: b3 :: rest)) ∧
    (∀ rest : List Nat, readcbLoop (encodeFrame id payload ++ rest)
      = (id :: (readcbLoop rest).1, (readcbLoop rest).2)) ∧
    (∀ fs : List (Nat × List Nat),
      readcbLoop (encodeFrames fs) = (fs.map Prod.fst, [])) ∧
    readcbLoop ((encodeFrame id payload).take k)
      = ([], (encodeFrame id payload).take k) ∧
    readcbLoop ((encodeFrame id payload).take k ++ (encodeFrame id payload).drop k)
      = ([id], []) := by
  refine ⟨readcbLoop_short, readcbLoop_incomplete,
    fun rest => readcbLoop_frame id payload rest, readcbLoop_frames,
    readcbLoop_take_frame id k payload hk, ?_⟩
  rw [List.take_append_drop]
  have h := readcbLoop_frame id payload []
  rw [List.append_nil] at h
  rw [h, readcbLoop_nil]

/-- C1 witness: the theorem evaluated at id 3, payload of two bytes, split
point 5. -/
theorem C1_witness :
    readcbLoop ((encodeFrame 3 [1, 2]).take 5 ++ (encodeFrame 3 [1, 2]).drop 5)
      = ([3], []) :=
  (C1_decoder_complete_frames 3 5 [1, 2] (by norm_num)
    (by norm_num) (by norm_num [encodeFrame, be16])).2.2.2.2.2

lemma doSends_cons (t : Timespec) (ts : List Timespec) (s : ConnState) :
    doSends s (t :: ts) = doSends (writecb t s) ts := by
  simp [doSends]

lemma writecb_query_id (t : Timespec) (s : ConnState) :
    (writecb t s).query_id = (s.query_id + 1) % 65536 := rfl

lemma slotIdx_ne (a q : Nat) (h : a % 8 ≠ q % 8) : slotIdx a ≠ slotIdx q := by
  simp only [slotIdx, MAX_QUERIES_IN_FLIGHT, ne_eq, Fin.mk.injEq]
  exact h

lemma doSends_preserves_slot (q : Nat) (t0 : Timespec) (ts : List Timespec) :
    ∀ (j : Nat) (u : ConnState), 1 ≤ j → j + ts.length ≤ 8 →
      u.query_id = (q + j) % 65536 →
      u.query_timestamps (slotIdx q) = t0 →
      (doSends u ts).query_timestamps (slotIdx q) = t0 := by
  induction ts with
  | nil =>
      intro j u h1 h2 hq hslot
      simpa [doSends] using hslot
  | cons t ts ih =>
      intro j u h1 h2 hq hslot
      rw [doSends_cons]
      refine ih (j + 1) (writecb t u) (by omega)
        (by simp only [List.length_cons] at h2; omega) ?_ ?_
      · rw [writecb_query_id, hq]
        omega
      · show (Function.update u.query_timestamps (slotIdx u.query_id) t) (slotIdx q) = t0
        rw [Function.update_noteq, hslot]
        apply slotIdx_ne
        rw [hq]
        simp only [List.length_cons] at h2
        omega

/-- C2: writecb stores the send time at ring slot query id mod 8, and if the
response is decoded after at most 7 further sends on the connection, the RTT
printed at decode time is receive time minus send time in whole
microseconds. -/
theorem C2_rtt_tracking (s : ConnState) (tsend trecv : Timespec)
    (ts : List Timespec) (hk : ts.length ≤ 7)
    (hsn : tsend.normalized) (hrn : trecv.normalized)
    (hle : tsend.toNanos ≤ trecv.toNanos) :
    (writecb tsend s).query_timestamps (slotIdx s.query_id) = tsend ∧
    readcbRtt (doSends (writecb tsend s) ts) s.query_id trecv
      = (trecv.toNanos - tsend.toNanos) / 1000 := by
  have hslot : (writecb tsend s).query_timestamps (slotIdx s.query_id) = tsend := by
    show (Function.update s.query_timestamps (slotIdx s.query_id) tsend) _ = tsend
    rw [Function.update_same]
  refine ⟨hslot, ?_⟩
  have hpres := doSends_preserves_slot s.query_id tsend ts 1 (writecb tsend s)
    (by omega) (by omega) (by rw [writecb_query_id]) hslot
  unfold readcbRtt
  rw [hpres]
  rcases lt_or_eq_of_le hle with h | h
  · obtain ⟨heq, hsec, hns⟩ := subtract_timespec_of_gt trecv tsend h hrn hsn
    rw [rttMicros_eq_toNanos_div _ hsec hns.1, heq]
  · rw [subtract_timespec_of_le trecv tsend (le_of_eq h.symm) hrn hsn, h]
    simp [rttMicros]

/-- C2 witness: concrete evaluation with send at 1 s 500 ns, receive at
2 s 300 ns, and two further sends in between. -/
theorem C2_witness :
    readcbRtt (doSends (writecb ⟨1, 500⟩ cs5) [⟨3, 0⟩, ⟨4, 0⟩]) cs5.query_id ⟨2, 300⟩
      = (Timespec.toNanos ⟨2, 300⟩ - Timespec.toNanos ⟨1, 500⟩) / 1000 :=
  (C2_rtt_tracking cs5 ⟨1, 500⟩ ⟨2, 300⟩ [⟨3, 0⟩, ⟨4, 0⟩] (by norm_num)
    ⟨by norm_num, by norm_num⟩ ⟨by norm_num, by norm_num⟩
    (by norm_num [Timespec.toNanos])).2

lemma doSends_output (ts : List Timespec) :
    ∀ s : ConnState, s.query_id < 65536 →
      (doSends s ts).output = s.output ++
        (List.range ts.length).map (fun i => writecbFrame ((s.query_id + i) % 65536)) := by
  induction ts with
  | nil =>
      intro s hs
      simp [doSends]
  | cons t ts ih =>
      intro s hs
      rw [doSends_cons, ih (writecb t s) (by rw [writecb_query_id]; omega)]
      have hq : (writecb t s).query_id = (s.query_id + 1) % 65536 := rfl
      have hout : (writecb t s).output = s.output ++ [writecbFrame s.query_id] := rfl
      have hfe : (fun i => writecbFrame (((s.query_id + 1) % 65536 + i) % 65536))
          = ((fun i => writecbFrame ((s.query_id + i) % 65536)) ∘ Nat.succ) := by
        funext i
        simp only [Function.comp_apply]
        congr 1
        omega
      simp only [hq, hout, List.append_assoc, List.singleton_append, List.length_cons,
        List.range_succ_eq_map, List.map_cons, List.map_map, Nat.add_zero, hfe]
      rw [Nat.mod_eq_of_lt hs]

/-- C5: every send tick emits exactly one 31-byte frame with big-endian
length 29 in bytes 0 and 1, the big-endian current query id in bytes 2 and 3
and the fixed payload in bytes 4 to 30; the id starts at 0 and the k-th send
carries id k mod 65536. -/
theorem C5_send_tick_frame (q : Nat) (hq : q < 65536) (s : ConnState)
    (hid0 : s.query_id = 0) (hout0 : s.output = []) (ts : List Timespec) :
    (writecbFrame q).length = 31 ∧
    (writecbFrame q).take 2 = [0x00, 0x1d] ∧
    256 * 0x00 + 0x1d = 29 ∧
    ((writecbFrame q).drop 2).take 2 = be16 q ∧
    256 * (q / 256) + q % 256 = q ∧
    (writecbFrame q).drop 4 = fixedPayload ∧
    (doSends s ts).output
      = (List.range ts.length).map (fun k => writecbFrame (k % 65536)) := by
  refine ⟨rfl, rfl, by norm_num, rfl, Nat.div_add_mod q 256, rfl, ?_⟩
  rw [doSends_output ts s (by rw [hid0]; norm_num), hid0, hout0]
  simp

/-- C5 witness: two concrete send ticks from a fresh connection. -/
theorem C5_witness :
    (doSends cs0 [⟨1, 0⟩, ⟨2, 0⟩]).output
      = (List.range 2).map (fun k => writecbFrame (k % 65536)) :=
  (C5_send_tick_frame 300 (by norm_num) cs0 rfl rfl [⟨1, 0⟩, ⟨2, 0⟩]).2.2.2.2.2.2

/-- C7 as stated is false on the code: eventcb only prints the error, so
after an error event the periodic timer still emits a frame; refuted at a
concrete state with the BEV_EVENT_ERROR flag set. -/
theorem C7_counterexample :
    ¬ (∀ (s : ConnState) (events : Nat) (t : Timespec),
        events &&& BEV_EVENT_ERROR ≠ 0 →
        (writecb t (eventcb events s)).output = (eventcb events s).output) := by
  intro h
  have h32 : (32 : Nat) &&& BEV_EVENT_ERROR ≠ 0 := by decide
  have heq := h cs0 32 ⟨0, 0⟩ h32
  have hlen := congrArg List.length heq
  simp [writecb, eventcb, cs0] at hlen

/-- C7 amended: after a transport error event on an established connection
the code only logs the error: eventcb leaves the connection state unchanged,
no Failed marking exists, and the periodic send timer keeps producing one
frame per tick. -/
theorem C7_amended_error_only_logged (s : ConnState) (events : Nat) (t : Timespec) :
    eventcb events s = s ∧
    (writecb t (eventcb events s)).output = s.output ++ [writecbFrame s.query_id] :=
  ⟨rfl, rfl⟩

/-- C3 as stated is false on the code: the product 1000000 * nb_conn is a
64-bit unsigned multiplication and overflows at nb_conn = 2^54 (with rate 1),
where the computed microsecond component differs from the claimed formula. -/
theorem C3_counterexample :
    computeWriteInterval 18014398509481984 1 ≠ specWriteInterval 18014398509481984 1 := by
  decide

/-- C3 amended: for C, R > 0, provided 1000000 * C does not overflow the
64-bit unsigned multiplication, the computed interval equals floor(C/R)
seconds plus ((1000000*C/R) mod 1000000) microseconds with the microsecond
component raised to 1 when it would be 0; the microsecond component is
always positive, so the interval is never zero. -/
theorem C3_write_interval (C R : Nat) (hC : 0 < C) (hR : 0 < R) :
    (1000000 * C < ULONG_MOD → computeWriteInterval C R = specWriteInterval C R) ∧
    0 < (computeWriteInterval C R).2 ∧
    intervalTotalUsec (computeWriteInterval C R) ≠ 0 := by
  have husec : 0 < (computeWriteInterval C R).2 := by
    unfold computeWriteInterval
    dsimp only
    split_ifs with h
    · exact h
    · norm_num
  refine ⟨fun hov => ?_, husec, ?_⟩
  · unfold computeWriteInterval specWriteInterval
    rw [Nat.mod_eq_of_lt hov]
    by_cases hu : (1000000 * C / R) % 1000000 = 0
    · simp [hu]
    · have hpos : 0 < (1000000 * C / R) % 1000000 := Nat.pos_of_ne_zero hu
      simp [hu, hpos]
  · unfold intervalTotalUsec
    omega

/-- C3 witness: the amended equality evaluated at C = 4, R = 2. -/
theorem C3_witness : computeWriteInterval 4 2 = specWriteInterval 4 2 :=
  (C3_write_interval 4 2 (by norm_num) (by norm_num)).1 (by norm_num [ULONG_MOD])

/-- C4 as stated is false on the code: with C = 4, R = 2 the computed
interval is 2 s 1 us, and the draw 2000001 yields an initial delay equal to
the interval, not strictly below it, because main reduces modulo
interval + 1. -/
theorem C4_counterexample :
    ¬ (∀ r : Nat, randUsec r (computeWriteInterval 4 2)
        < intervalTotalUsec (computeWriteInterval 4 2)) := by
  intro h
  exact absurd (h 2000001) (by decide)

/-- C4 amended: the initial delay is random() % (interval + 1), so it is
drawn from the closed range [0, interval]: it never exceeds the interval but
can equal it, and every value of that closed range is attainable. -/
theorem C4_delay_range (itv : Nat × Nat) (r : Nat) :
    randUsec r itv ≤ intervalTotalUsec itv ∧
    (∀ d, d ≤ intervalTotalUsec itv → randUsec d itv = d) := by
  constructor
  · show r % (1000000 * itv.1 + itv.2 + 1) ≤ 1000000 * itv.1 + itv.2
    exact Nat.lt_succ_iff.mp (Nat.mod_lt r (Nat.succ_pos _))
  · intro d hd
    have hd2 : d ≤ 1000000 * itv.1 + itv.2 := hd
    show d % (1000000 * itv.1 + itv.2 + 1) = d
    exact Nat.mod_eq_of_lt (by omega)

/-- C4 witness: the amended range statement evaluated at the interval for
C = 4, R = 2 and draw 123. -/
theorem C4_witness : randUsec 123 (2, 1) ≤ intervalTotalUsec (2, 1) :=
  (C4_delay_range (2, 1) 123).1

lemma rampGo_all_ok (ok : Nat → Bool) :
    ∀ (fuel start : Nat), (∀ j, j < fuel → ok (start + j) = true) →
      (rampGo ok start fuel).length = fuel ∧
      scheduleCount (rampGo ok start fuel) = fuel := by
  intro fuel
  induction fuel with
  | zero => intro start h; exact ⟨rfl, rfl⟩
  | succ fuel ih =>
      intro start h
      have h0 : ok start = true := by simpa using h 0 (Nat.succ_pos _)
      have hrec := ih (start + 1) (fun j hj => by
        rw [show start + 1 + j = start + (j + 1) from by omega]
        exact h (j + 1) (by omega))
      simp only [rampGo, h0, if_true, List.length_cons, scheduleCount]
      omega

lemma rampGo_fail (ok : Nat → Bool) :
    ∀ (fuel start d : Nat), d < fuel →
      (∀ j, j < d → ok (start + j) = true) → ok (start + d) = false →
      (rampGo ok start fuel).length = d + 1 ∧
      scheduleCount (rampGo ok start fuel) = d := by
  intro fuel
  induction fuel with
  | zero => intro start d hd; omega
  | succ fuel ih =>
      intro start d hd hpre hfail
      match d with
      | 0 =>
          have h0 : ok start = false := by simpa using hfail
          simp [rampGo, h0, scheduleCount]
      | e + 1 =>
          have h0 : ok start = true := by simpa using hpre 0 (Nat.succ_pos _)
          have hrec := ih (start + 1) e (by omega)
            (fun j hj => by
              rw [show start + 1 + j = start + (j + 1) from by omega]
              exact hpre (j + 1) (by omega))
            (by
              rw [show start + 1 + e = start + (e + 1) from by omega]
              exact hfail)
          simp only [rampGo, h0, if_true, List.length_cons, scheduleCount]
          omega

/-- C6: if the k-th (1-indexed) create-or-connect attempt is the first to
fail during ramp-up, exactly k attempts are made (none beyond index k) and
exactly the k-1 previously established connections are handed to the write
scheduler; if all C attempts succeed, all C connections are scheduled. -/
theorem C6_ramp_fail_fast (ok : Nat → Bool) (C k : Nat) :
    (1 ≤ k → k ≤ C → (∀ i, i + 1 < k → ok i = true) → ok (k - 1) = false →
      (rampArray ok C).length = k ∧ scheduleCount (rampArray ok C) = k - 1) ∧
    ((∀ i, i < C → ok i = true) →
      (rampArray ok C).length = C ∧ scheduleCount (rampArray ok C) = C) := by
  constructor
  · intro h1 h2 hpre hfail
    obtain ⟨hl, hc⟩ := rampGo_fail ok C 0 (k - 1) (by omega)
      (fun j hj => by simpa using hpre j (by omega)) (by simpa using hfail)
    unfold rampArray
    exact ⟨by omega, hc⟩
  · intro hall
    have := rampGo_all_ok ok C 0 (fun j hj => by simpa using hall j hj)
    unfold rampArray
    exact this

/-- C6 witness: five requested connections with the third attempt failing
give three attempts and two scheduled connections. -/
theorem C6_witness :
    (rampArray (fun i => decide (i < 2)) 5).length = 3 ∧
    scheduleCount (rampArray (fun i => decide (i < 2)) 5) = 2 :=
  (C6_ramp_fail_fast (fun i => decide (i < 2)) 5 3).1 (by norm_num) (by norm_num)
    (fun i hi => by simp only [decide_eq_true_eq]; omega) (by decide)

/-- C9: the generator is seeded with the literal constant 42, so the drawn
initial-delay sequence depends only on the configuration, not on the run
environment: two runs with identical configuration draw identical delays. -/
theorem C9_fixed_seed_determinism (rng : Nat → Nat → Nat) (itv : Nat × Nat)
    (env1 env2 : Nat) :
    (∀ i, initialDelaySeq rng env1 itv i = initialDelaySeq rng env2 itv i) ∧
    srandomSeed env1 = 42 :=
  ⟨fun _ => rfl, rfl⟩

/-- C10: the validity check rejects rate = 0 and nb_conn = 0 but never
inspects new_conn_rate, so an otherwise-valid command line with -n 0 passes
the check and reaches the division 1000000 / new_conn_rate with divisor 0;
the division is safe exactly under the precondition new_conn_rate >= 1. -/
theorem C10_new_conn_rate_unchecked :
    (∀ a : CmdArgs, a.rate = 0 → missingMandatoryArgs a = true) ∧
    (∀ a : CmdArgs, a.nb_conn = 0 → missingMandatoryArgs a = true) ∧
    missingMandatoryArgs ⟨true, true, 1, 1, 0⟩ = false ∧
    (⟨true, true, 1, 1, 0⟩ : CmdArgs).new_conn_rate = 0 ∧
    (∀ a : CmdArgs, 1 ≤ a.new_conn_rate → a.new_conn_rate ≠ 0 ∧
      new_conn_interval a = 1000000 / a.new_conn_rate) := by
  refine ⟨?_, ?_, rfl, rfl, ?_⟩
  · intro a h
    simp [missingMandatoryArgs, h]
  · intro a h
    simp [missingMandatoryArgs, h]
  · intro a h
    exact ⟨by omega, rfl⟩

/-- C10 witness: a command line with rate 0 is rejected. -/
theorem C10_witness : missingMandatoryArgs ⟨true, true, 0, 5, 1000⟩ = true :=
  C10_new_conn_rate_unchecked.1 ⟨true, true, 0, 5, 1000⟩ rfl

end Tcpscaler
